import Mathlib

/-!
Verification of the zone-web attendance-upload workflow (`src/App.tsx`).

The single React component is shallowly embedded: each `useState` flag
becomes a field of `AppState`, each event handler becomes a pure state
transformer, and the UI's conditional rendering becomes guards on an
event-step function. JavaScript string/array primitives used by the
source (`split`, `includes`, `replace(/x/g,..)`, `join`, `parseInt`,
template-literal stringification of `undefined`/`NaN`, object indexing)
are modelled by explicit Lean functions on `List Char` / `List` so that
every definition is executable and kernel-reducible.
-/

/-- A JavaScript scalar value as it can appear in a parsed JSON record
(`Record<string, unknown>`), plus `undefined` which object indexing can
produce for a missing key. -/
inductive JsValue where
  | vNull : JsValue
  | vUndefined : JsValue
  | vStr : String → JsValue
  | vNum : Int → JsValue
  | vBool : Bool → JsValue
deriving DecidableEq, Repr

/-- A parsed JSON record: an ordered list of field-name/value pairs,
modelling a JavaScript object's own enumerable properties in insertion
order (`Object.keys` order). -/
abbrev MiscRecord := List (String × JsValue)

/-- The `status` field of the response body (`'success' | 'error'`). -/
inductive RespStatus where
  | success : RespStatus
  | error : RespStatus
deriving DecidableEq, Repr

/-- The `ProcessResult` interface from `App.tsx`. Optional fields are
`Option`; a JSON `null` and an absent field are both `none`. -/
structure ProcessResult where
  status : RespStatus
  message : Option String
  matched_count : Option Int
  unmatched_count : Option Int
  bigquery_loaded : Option Bool
  misc_records : Option (List MiscRecord)
deriving DecidableEq, Repr

/-- JavaScript `String(v)` applied to `v ?? ''`: nullish values collapse
to the empty string, strings pass through, numbers and booleans are
stringified (`App.tsx` line 157: `String(value ?? '')`). -/
def jsString : JsValue → String
  | JsValue.vNull => ""
  | JsValue.vUndefined => ""
  | JsValue.vStr s => s
  | JsValue.vNum n => toString n
  | JsValue.vBool b => if b then "true" else "false"

/-- JavaScript `str.includes(c)` for a single-character needle. -/
def jsIncludes (s : String) (c : Char) : Bool :=
  s.data.any (fun x => x == c)

/-- Global single-character replacement on a character list, modelling
`str.replace(/c/g, repl)`. -/
def replaceChar (target : Char) (repl : List Char) : List Char → List Char
  | [] => []
  | c :: cs =>
    if c = target then repl ++ replaceChar target repl cs
    else c :: replaceChar target repl cs

/-- `str.replace(/"/g, '""')` from `App.tsx` line 159. -/
def doubleQuotes (s : String) : String :=
  String.mk (replaceChar '"' ['"', '"'] s.data)

/-- JavaScript `Array.prototype.join(sep)`. -/
def joinWith (sep : String) : List String → String
  | [] => ""
  | [x] => x
  | x :: y :: xs => x ++ sep ++ joinWith sep (y :: xs)

/-- One CSV cell as built by `downloadMiscCSV`: stringify the value,
then quote-and-double exactly when the string contains a comma or a
double quote. -/
def csvCell (v : JsValue) : String :=
  let str := jsString v
  if jsIncludes str ',' || jsIncludes str '"' then
    "\"" ++ doubleQuotes str ++ "\""
  else str

/-- JavaScript object indexing `record[header]`: the first matching
property's value, or `undefined` when the key is absent. -/
def lookupField (rec : MiscRecord) (k : String) : JsValue :=
  match rec.find? (fun p => p.1 == k) with
  | some p => p.2
  | none => JsValue.vUndefined

/-- The CSV text assembled by `downloadMiscCSV` (lines 150-164): header
row is the first record's keys joined by commas, then one row per record
obtained by looking each header up in that record, all joined by
newlines. `first` is `misc_records[0]`. -/
def csvContent (records : List MiscRecord) (first : MiscRecord) : String :=
  let headers := first.map Prod.fst
  joinWith "\n"
    (joinWith "," headers ::
      records.map (fun rec =>
        joinWith "," (headers.map (fun h => csvCell (lookupField rec h)))))

/-- `downloadMiscCSV`: returns the CSV text offered for download, or
`none` when the guard `if (!result?.misc_records?.length) return` fires
(no result, no `misc_records` field / `null`, or an empty array). -/
def downloadMiscCSV (result : Option ProcessResult) : Option String :=
  match result with
  | none => none
  | some r =>
    match r.misc_records with
    | none => none
    | some [] => none
    | some (first :: rest) => some (csvContent (first :: rest) first)

/-- JavaScript `str.split(sep)` for a single-character separator, on
character lists: `""` yields `[[]]`, a trailing separator yields a
trailing empty component. -/
def splitCharsOn (sep : Char) : List Char → List (List Char)
  | [] => [[]]
  | c :: cs =>
    if c = sep then [] :: splitCharsOn sep cs
    else
      match splitCharsOn sep cs with
      | [] => [[c]]
      | h :: t => (c :: h) :: t

/-- JavaScript `dateStr.split('-')` (single-character separator). -/
def jsSplit (sep : Char) (s : String) : List String :=
  (splitCharsOn sep s.data).map String.mk

/-- Array destructuring plus template-literal stringification: reading
index `i` of `parts` gives the component, or the string `"undefined"`
when the destructured variable is `undefined` (as `${x}` renders it). -/
def jsIndex (parts : List String) (i : Nat) : String :=
  match parts.get? i with
  | some v => v
  | none => "undefined"

/-- `formatDateForAPI` (lines 75-79): split on `-` into
`[year, month, day]` and rebuild as `month/day/year`. -/
def formatDateForAPI (dateStr : String) : String :=
  let parts := jsSplit '-' dateStr
  jsIndex parts 1 ++ "/" ++ jsIndex parts 2 ++ "/" ++ jsIndex parts 0

/-- Numeric value of a decimal digit list (most significant first). -/
def digitsVal (ds : List Char) : Nat :=
  ds.foldl (fun acc c => acc * 10 + (c.toNat - 48)) 0

/-- JavaScript `parseInt` restricted to the inputs this component feeds
it (no sign, no radix prefix, no leading whitespace): the value of the
longest leading run of decimal digits, `none` for `NaN`. -/
def parseIntJs (s : String) : Option Nat :=
  let ds := s.data.takeWhile Char.isDigit
  if ds.isEmpty then none else some (digitsVal ds)

/-- The fixed Spanish month-name table from `formatDateForDisplay`. -/
def monthsTable : List String :=
  ["enero", "febrero", "marzo", "abril", "mayo", "junio",
   "julio", "agosto", "septiembre", "octubre", "noviembre", "diciembre"]

/-- `months[parseInt(month) - 1]` rendered by a template literal: a
`NaN` index or an out-of-range index gives `undefined`, which renders as
`"undefined"`. -/
def monthLookup : Option Nat → String
  | none => "undefined"
  | some n =>
    if n = 0 then "undefined"
    else
      match monthsTable.get? (n - 1) with
      | some name => name
      | none => "undefined"

/-- `${parseInt(x)}`: a number renders in decimal, `NaN` as `"NaN"`. -/
def numToStr : Option Nat → String
  | none => "NaN"
  | some n => toString n

/-- `formatDateForDisplay` (lines 81-89): empty input short-circuits to
`""`; otherwise split on `-` and render
`{parseInt(day)} de {months[parseInt(month)-1]} de {year}`. -/
def formatDateForDisplay (dateStr : String) : String :=
  if dateStr = "" then ""
  else
    let parts := jsSplit '-' dateStr
    numToStr (parseIntJs (jsIndex parts 2)) ++ " de " ++
      monthLookup (parseIntJs (jsIndex parts 1)) ++ " de " ++ jsIndex parts 0

/-- The data-entry mode toggle (`'upload' | 'manual'`). -/
inductive EntryMode where
  | upload : EntryMode
  | manual : EntryMode
deriving DecidableEq, Repr

/-- The component's `useState` flags (the drag-over highlight, pure
presentation, is omitted). `file` holds the selected file's name, or
`none` for the `null` reference. -/
structure AppState where
  startDate : String
  endDate : String
  password : String
  file : Option String
  fileContent : String
  isLoading : Bool
  result : Option ProcessResult
  error : String
  entryMode : EntryMode
  showConfirmation : Bool
deriving DecidableEq, Repr

/-- The initial state of every `useState` hook. -/
def initState : AppState :=
  { startDate := "", endDate := "", password := "", file := none,
    fileContent := "", isLoading := false, result := none, error := "",
    entryMode := EntryMode.manual, showConfirmation := false }

/-- `isFormValid` (line 186): `startDate && endDate && password &&
fileContent`, i.e. all four strings truthy (non-empty). -/
def isFormValid (s : AppState) : Bool :=
  !(s.startDate == "") && !(s.endDate == "") &&
    !(s.password == "") && !(s.fileContent == "")

/-- `handleSubmitRequest` (lines 91-108): three checks in order (dates,
password, content), each setting its message and returning; on success
clear the error and open the confirmation overlay. -/
def handleSubmitRequest (s : AppState) : AppState :=
  if s.startDate = "" ∨ s.endDate = "" then
    { s with error := "Por favor ingresa las fechas de inicio y fin" }
  else if s.password = "" then
    { s with error := "Por favor ingresa la contraseña" }
  else if s.fileContent = "" then
    { s with error := "Por favor sube un archivo con los datos" }
  else
    { s with error := "", showConfirmation := true }

/-- `handleModeChange` (lines 68-73). -/
def handleModeChange (s : AppState) (m : EntryMode) : AppState :=
  { s with entryMode := m, fileContent := "", file := none, error := "" }

/-- `handleFileRead` (lines 33-41) together with its `FileReader`
`onload` continuation: record the file reference and its text. -/
def handleFileRead (s : AppState) (nm txt : String) : AppState :=
  { s with file := some nm, fileContent := txt }

/-- `resetForm` (lines 176-184): clear file, content, result, error and
both dates; the password is deliberately kept. -/
def resetForm (s : AppState) : AppState :=
  { s with file := none, fileContent := "", result := none, error := "",
           startDate := "", endDate := "" }

/-- The synchronous prefix of `processAttendance` (lines 110-113): close
the overlay, clear any previous result, start loading. -/
def processAttendanceStart (s : AppState) : AppState :=
  { s with showConfirmation := false, result := none, isLoading := true }

/-- How the single `fetch` settles: an HTTP response with a status code
and a parsed JSON body, or a rejection (network failure / unparsable
body), which the `catch` block handles. -/
inductive FetchOutcome where
  | response : Nat → ProcessResult → FetchOutcome
  | networkError : FetchOutcome
deriving DecidableEq, Repr

/-- `response.ok`: status code in the 2xx range. -/
def responseOk (c : Nat) : Bool :=
  decide (200 ≤ c) && decide (c < 300)

/-- JavaScript `data.message || dflt`: the default replaces an absent
message and also an empty (falsy) one. -/
def jsStringOr (o : Option String) (dflt : String) : String :=
  match o with
  | some m => if m = "" then dflt else m
  | none => dflt

/-- The continuation of `processAttendance` once the call settles
(lines 130-143): on 2xx store the parsed body as the result; otherwise
set the error from the body's `message` (or the fixed default); on a
rejected promise set the fixed connection-error message. The `finally`
clears `isLoading` in every branch. -/
def processAttendanceSettle (s : AppState) : FetchOutcome → AppState
  | FetchOutcome.response c data =>
    if responseOk c then
      { s with result := some data, isLoading := false }
    else
      { s with error := jsStringOr data.message "Error al procesar los datos",
               isLoading := false }
  | FetchOutcome.networkError =>
    { s with error := "Error de conexión con el servidor. Verifica que el servicio esté activo.",
             isLoading := false }

/-- The form view renders iff `!isLoading && !result` (line 200). -/
def formViewVisible (s : AppState) : Bool :=
  !s.isLoading && s.result.isNone

/-- The success view renders iff `result && result.status === 'success'`
(line 373); its reset button lives there. -/
def successViewVisible (s : AppState) : Bool :=
  match s.result with
  | some r => r.status == RespStatus.success
  | none => false

/-- Form fields and buttons are interactable only when the form view is
shown and the confirmation overlay is not covering it. -/
def canEdit (s : AppState) : Bool :=
  formViewVisible s && !s.showConfirmation

/-- The overlay's two buttons are reachable exactly when the form view
is shown with the overlay open. -/
def confirmEnabled (s : AppState) : Bool :=
  formViewVisible s && s.showConfirmation

/-- The discrete events that can drive the component: user interactions
on reachable controls, plus the settling of the in-flight `fetch`. -/
inductive Event where
  | setStart : String → Event
  | setEnd : String → Event
  | setPassword : String → Event
  | setContent : String → Event
  | fileRead : String → String → Event
  | modeChange : EntryMode → Event
  | submitRequest : Event
  | cancelConfirm : Event
  | confirm : Event
  | settle : FetchOutcome → Event
  | resetEvt : Event
deriving DecidableEq, Repr

/-- One step of the component: each event applies its handler when the
corresponding control is reachable in the rendered view (the submit
button additionally carries `disabled={!isFormValid}`), and is a no-op
otherwise. `settle` can only act while a call is loading. -/
def step (s : AppState) : Event → AppState
  | Event.setStart v => if canEdit s then { s with startDate := v } else s
  | Event.setEnd v => if canEdit s then { s with endDate := v } else s
  | Event.setPassword v => if canEdit s then { s with password := v } else s
  | Event.setContent v =>
    if canEdit s && (s.entryMode == EntryMode.manual) then
      { s with fileContent := v }
    else s
  | Event.fileRead nm txt =>
    if canEdit s && (s.entryMode == EntryMode.upload) then
      handleFileRead s nm txt
    else s
  | Event.modeChange m => if canEdit s then handleModeChange s m else s
  | Event.submitRequest =>
    if canEdit s && isFormValid s then handleSubmitRequest s else s
  | Event.cancelConfirm =>
    if confirmEnabled s then { s with showConfirmation := false } else s
  | Event.confirm =>
    if confirmEnabled s then processAttendanceStart s else s
  | Event.settle o => if s.isLoading then processAttendanceSettle s o else s
  | Event.resetEvt => if successViewVisible s then resetForm s else s

/-- The state after a sequence of events from the initial render. -/
def reach (es : List Event) : AppState :=
  es.foldl step initState

/-- `true` when processing event `e` in state `s` issues an outbound
network call (only a reachable confirm button does). -/
def issuesCall (s : AppState) : Event → Bool
  | Event.confirm => confirmEnabled s
  | _ => false

/-- `true` when event `e` completes an in-flight call. -/
def completesCall (s : AppState) : Event → Bool
  | Event.settle _ => s.isLoading
  | _ => false

/-- Component state instrumented with the number of in-flight calls. -/
structure Sys where
  app : AppState
  inFlight : Nat
deriving DecidableEq, Repr

/-- Instrumented step: the state steps as before and the in-flight
counter tracks issued and completed calls. -/
def sysStep (σ : Sys) (e : Event) : Sys :=
  { app := step σ.app e,
    inFlight := σ.inFlight + (if issuesCall σ.app e then 1 else 0)
      - (if completesCall σ.app e then 1 else 0) }

/-- The instrumented system starts with no call in flight. -/
def sysInit : Sys := { app := initState, inFlight := 0 }

/-- Instrumented state after a sequence of events. -/
def sysReach (es : List Event) : Sys :=
  es.foldl sysStep sysInit

/-!
Shared lemmas: splitting, reachability invariants, CSV lookups.
-/

theorem splitCharsOn_no_sep (sep : Char) (l : List Char)
    (h : ∀ c ∈ l, c ≠ sep) : splitCharsOn sep l = [l] := by
  induction l with
  | nil => rfl
  | cons c cs ih =>
    have hc : c ≠ sep := h c (List.mem_cons_self c cs)
    have hrest := ih (fun x hx => h x (List.mem_cons_of_mem c hx))
    simp only [splitCharsOn, if_neg hc, hrest]

theorem splitCharsOn_append (sep : Char) (l1 l2 : List Char)
    (h : ∀ c ∈ l1, c ≠ sep) :
    splitCharsOn sep (l1 ++ sep :: l2) = l1 :: splitCharsOn sep l2 := by
  induction l1 with
  | nil => simp [splitCharsOn]
  | cons c cs ih =>
    have hc : c ≠ sep := h c (List.mem_cons_self c cs)
    have hrest := ih (fun x hx => h x (List.mem_cons_of_mem c hx))
    simp only [List.cons_append, splitCharsOn, if_neg hc, List.append_eq]
    rw [hrest]

theorem string_mk_data (s : String) : String.mk s.data = s := rfl

theorem string_data_append (a b : String) :
    (a ++ b).data = a.data ++ b.data := rfl

/-- Splitting `y-m-d` recovers the three components when none of them
contains the separator. -/
theorem jsSplit_dash (y m d : String)
    (hy : ∀ c ∈ y.data, c ≠ '-') (hm : ∀ c ∈ m.data, c ≠ '-')
    (hd : ∀ c ∈ d.data, c ≠ '-') :
    jsSplit '-' (y ++ "-" ++ m ++ "-" ++ d) = [y, m, d] := by
  have hdata : (y ++ "-" ++ m ++ "-" ++ d).data
      = y.data ++ '-' :: (m.data ++ '-' :: d.data) := by
    simp [string_data_append]
  unfold jsSplit
  rw [hdata, splitCharsOn_append _ _ _ hy, splitCharsOn_append _ _ _ hm,
    splitCharsOn_no_sep _ _ hd]
  simp [string_mk_data]

theorem canEdit_spec (s : AppState) (h : canEdit s = true) :
    s.isLoading = false ∧ s.result = none ∧ s.showConfirmation = false := by
  simp only [canEdit, formViewVisible, Bool.and_eq_true, Bool.not_eq_true',
    Option.isNone_iff_eq_none] at h
  exact ⟨h.1.1, h.1.2, h.2⟩

theorem confirmEnabled_spec (s : AppState) (h : confirmEnabled s = true) :
    s.isLoading = false ∧ s.result = none ∧ s.showConfirmation = true := by
  simp only [confirmEnabled, formViewVisible, Bool.and_eq_true,
    Bool.not_eq_true', Option.isNone_iff_eq_none] at h
  exact ⟨h.1.1, h.1.2, h.2⟩

theorem isFormValid_spec (s : AppState) :
    isFormValid s = true ↔
      s.startDate ≠ "" ∧ s.endDate ≠ "" ∧ s.password ≠ "" ∧
        s.fileContent ≠ "" := by
  simp [isFormValid, and_assoc]

/-- In any state reachable while the confirmation overlay is open, no
call is loading, no result is held, the error is clear, and all four
required fields are non-empty. -/
def ConfInv (s : AppState) : Prop :=
  s.showConfirmation = true →
    s.isLoading = false ∧ s.result = none ∧ s.error = "" ∧
      s.startDate ≠ "" ∧ s.endDate ≠ "" ∧ s.password ≠ "" ∧
        s.fileContent ≠ ""

theorem confInv_of_showConf_false {s : AppState}
    (h : s.showConfirmation = false) : ConfInv s := by
  intro hsc
  rw [h] at hsc
  cases hsc

theorem settle_showConf (s : AppState) (o : FetchOutcome) :
    (processAttendanceSettle s o).showConfirmation = s.showConfirmation := by
  cases o with
  | response c data =>
    simp only [processAttendanceSettle]
    split <;> rfl
  | networkError => rfl

theorem settle_isLoading (s : AppState) (o : FetchOutcome) :
    (processAttendanceSettle s o).isLoading = false := by
  cases o with
  | response c data =>
    simp only [processAttendanceSettle]
    split <;> rfl
  | networkError => rfl

theorem handleSubmitRequest_valid (s : AppState)
    (h1 : s.startDate ≠ "") (h2 : s.endDate ≠ "") (h3 : s.password ≠ "")
    (h4 : s.fileContent ≠ "") :
    handleSubmitRequest s = { s with error := "", showConfirmation := true } := by
  unfold handleSubmitRequest
  rw [if_neg (by tauto), if_neg h3, if_neg h4]

theorem confInv_step (s : AppState) (e : Event) (h : ConfInv s) :
    ConfInv (step s e) := by
  cases e with
  | setStart v =>
    simp only [step]
    split
    · exact confInv_of_showConf_false (canEdit_spec s (by assumption)).2.2
    · exact h
  | setEnd v =>
    simp only [step]
    split
    · exact confInv_of_showConf_false (canEdit_spec s (by assumption)).2.2
    · exact h
  | setPassword v =>
    simp only [step]
    split
    · exact confInv_of_showConf_false (canEdit_spec s (by assumption)).2.2
    · exact h
  | setContent v =>
    simp only [step]
    split
    · rename_i hg
      rw [Bool.and_eq_true] at hg
      exact confInv_of_showConf_false (canEdit_spec s hg.1).2.2
    · exact h
  | fileRead nm txt =>
    simp only [step]
    split
    · rename_i hg
      rw [Bool.and_eq_true] at hg
      exact confInv_of_showConf_false (canEdit_spec s hg.1).2.2
    · exact h
  | modeChange m =>
    simp only [step]
    split
    · exact confInv_of_showConf_false (canEdit_spec s (by assumption)).2.2
    · exact h
  | submitRequest =>
    simp only [step]
    split
    · rename_i hg
      rw [Bool.and_eq_true] at hg
      obtain ⟨hce, hfv⟩ := hg
      obtain ⟨hl, hr, _⟩ := canEdit_spec s hce
      obtain ⟨h1, h2, h3, h4⟩ := (isFormValid_spec s).mp hfv
      rw [handleSubmitRequest_valid s h1 h2 h3 h4]
      exact fun _ => ⟨hl, hr, rfl, h1, h2, h3, h4⟩
    · exact h
  | cancelConfirm =>
    simp only [step]
    split
    · exact confInv_of_showConf_false rfl
    · exact h
  | confirm =>
    simp only [step]
    split
    · exact confInv_of_showConf_false rfl
    · exact h
  | settle o =>
    simp only [step]
    split
    · rename_i hl
      have hsc : s.showConfirmation = false := by
        cases hx : s.showConfirmation
        · rfl
        · rw [(h hx).1] at hl
          cases hl
      exact confInv_of_showConf_false (by rw [settle_showConf, hsc])
    · exact h
  | resetEvt =>
    simp only [step]
    split
    · rename_i hg
      have hsc : s.showConfirmation = false := by
        cases hx : s.showConfirmation
        · rfl
        · unfold successViewVisible at hg
          rw [(h hx).2.1] at hg
          cases hg
      exact confInv_of_showConf_false hsc
    · exact h

theorem confInv_foldl (es : List Event) (s : AppState) (h : ConfInv s) :
    ConfInv (es.foldl step s) := by
  induction es generalizing s with
  | nil => exact h
  | cons e es ih => exact ih _ (confInv_step s e h)

theorem confInv_reach (es : List Event) : ConfInv (reach es) :=
  confInv_foldl es initState (confInv_of_showConf_false rfl)

theorem handleSubmitRequest_isLoading (s : AppState) :
    (handleSubmitRequest s).isLoading = s.isLoading := by
  simp only [handleSubmitRequest]
  split
  · rfl
  · split
    · rfl
    · split <;> rfl

/-- The in-flight counter always equals 1 while loading and 0 otherwise. -/
def FlightInv (σ : Sys) : Prop :=
  σ.inFlight = if σ.app.isLoading = true then 1 else 0

theorem flightInv_step_other (σ : Sys) (e : Event)
    (hi : issuesCall σ.app e = false) (hc : completesCall σ.app e = false)
    (hl : (step σ.app e).isLoading = σ.app.isLoading)
    (h : FlightInv σ) : FlightInv (sysStep σ e) := by
  unfold FlightInv at *
  simp [sysStep, hi, hc, hl, h]

theorem flightInv_step (σ : Sys) (e : Event) (h : FlightInv σ) :
    FlightInv (sysStep σ e) := by
  cases e with
  | confirm =>
    unfold FlightInv at *
    by_cases hg : confirmEnabled σ.app = true
    · have hl : σ.app.isLoading = false := (confirmEnabled_spec _ hg).1
      rw [hl] at h
      simp at h
      simp [sysStep, issuesCall, completesCall, hg, step, processAttendanceStart, h]
    · simp [sysStep, issuesCall, completesCall, hg, step, h]
  | settle o =>
    unfold FlightInv at *
    by_cases hl : σ.app.isLoading = true
    · rw [hl] at h
      simp at h
      simp [sysStep, issuesCall, completesCall, hl, step, settle_isLoading, h]
    · simp [sysStep, issuesCall, completesCall, hl, step, h]
  | setStart v =>
    refine flightInv_step_other σ _ rfl rfl ?_ h
    simp only [step]
    split <;> rfl
  | setEnd v =>
    refine flightInv_step_other σ _ rfl rfl ?_ h
    simp only [step]
    split <;> rfl
  | setPassword v =>
    refine flightInv_step_other σ _ rfl rfl ?_ h
    simp only [step]
    split <;> rfl
  | setContent v =>
    refine flightInv_step_other σ _ rfl rfl ?_ h
    simp only [step]
    split <;> rfl
  | fileRead nm txt =>
    refine flightInv_step_other σ _ rfl rfl ?_ h
    simp only [step]
    split <;> rfl
  | modeChange m =>
    refine flightInv_step_other σ _ rfl rfl ?_ h
    simp only [step]
    split <;> rfl
  | submitRequest =>
    refine flightInv_step_other σ _ rfl rfl ?_ h
    simp only [step]
    split
    · exact handleSubmitRequest_isLoading σ.app
    · rfl
  | cancelConfirm =>
    refine flightInv_step_other σ _ rfl rfl ?_ h
    simp only [step]
    split <;> rfl
  | resetEvt =>
    refine flightInv_step_other σ _ rfl rfl ?_ h
    simp only [step]
    split <;> rfl

theorem flightInv_foldl (es : List Event) (σ : Sys) (h : FlightInv σ) :
    FlightInv (es.foldl sysStep σ) := by
  induction es generalizing σ with
  | nil => exact h
  | cons e es ih => exact ih _ (flightInv_step σ e h)

theorem flightInv_reach (es : List Event) : FlightInv (sysReach es) :=
  flightInv_foldl es sysInit (by unfold FlightInv; decide)

theorem lookupField_cons_self (k : String) (v : JsValue) (t : MiscRecord) :
    lookupField ((k, v) :: t) k = v := by
  unfold lookupField
  rw [List.find?_cons_of_pos t (by simp)]

theorem lookupField_cons_ne (k k' : String) (v : JsValue) (t : MiscRecord)
    (h : k' ≠ k) : lookupField ((k, v) :: t) k' = lookupField t k' := by
  unfold lookupField
  rw [List.find?_cons_of_neg t (by simp [Ne.symm h])]

/-- Looking each of a record's own keys up in the record recovers its
own values, provided the keys are distinct (JavaScript objects cannot
carry duplicate keys). -/
theorem lookup_map_self (rec : MiscRecord)
    (hnd : (rec.map Prod.fst).Nodup) :
    rec.map (fun p => lookupField rec p.1) = rec.map Prod.snd := by
  induction rec with
  | nil => rfl
  | cons p t ih =>
    obtain ⟨k, v⟩ := p
    simp only [List.map_cons] at hnd ⊢
    rw [List.nodup_cons] at hnd
    obtain ⟨hk, hnd'⟩ := hnd
    congr 1
    · exact lookupField_cons_self k v t
    · have hcongr : ∀ q ∈ t, lookupField ((k, v) :: t) q.1 = lookupField t q.1 := by
        intro q hq
        apply lookupField_cons_ne
        intro hqk
        exact hk (hqk ▸ List.mem_map_of_mem Prod.fst hq)
      rw [List.map_congr_left hcongr]
      exact ih hnd'

theorem headers_map_lookup (rec : MiscRecord) (headers : List String)
    (hkeys : rec.map Prod.fst = headers) (hnd : headers.Nodup) :
    headers.map (fun h => lookupField rec h) = rec.map Prod.snd := by
  subst hkeys
  rw [List.map_map]
  exact lookup_map_self rec hnd

/-- The spec's per-cell rule (§4.5 step 3), stated on its own: stringify
the value (nullish to empty string), then wrap in double quotes with
inner quotes doubled exactly when the string contains a comma or a
double quote, else emit raw. -/
def specCsvCell (v : JsValue) : String :=
  let str := jsString v
  if jsIncludes str ',' || jsIncludes str '"' then
    "\"" ++ doubleQuotes str ++ "\""
  else str

/-- The CSV text as the spec describes it (§4.5): column order is the
first record's key order, the header row is the columns joined by
commas, each record contributes its own values (in its own key order)
cell-converted and comma-joined, and all rows are newline-joined with
the header first. -/
def csvSpec (first : MiscRecord) (rest : List MiscRecord) : String :=
  joinWith "\n"
    (joinWith "," (first.map Prod.fst) ::
      (first :: rest).map (fun rec =>
        joinWith "," (rec.map (fun p => specCsvCell p.2))))

theorem specCsvCell_eq_csvCell (v : JsValue) : specCsvCell v = csvCell v := rfl

/-- A concrete interaction: fill the four fields, then request
submission, which opens the confirmation overlay. -/
def demoEvents : List Event :=
  [Event.setStart "2024-01-01", Event.setEnd "2024-01-02",
   Event.setPassword "pw", Event.setContent "datos", Event.submitRequest]

/-!
Claim theorems.
-/

/-- C1: on every 2xx HTTP response the workflow stores the parsed body
as the authoritative success payload: `result` becomes exactly the
parsed body, loading ends, and the failure branch is not taken (`error`
is untouched) — for every body, in particular one whose `status` field
is `error`. -/
theorem c1_http2xx_body_is_success_payload (s : AppState) (c : Nat)
    (data : ProcessResult) (h2 : 200 ≤ c) (h3 : c < 300) :
    (processAttendanceSettle s (FetchOutcome.response c data)).result = some data ∧
    (processAttendanceSettle s (FetchOutcome.response c data)).isLoading = false ∧
    (processAttendanceSettle s (FetchOutcome.response c data)).error = s.error := by
  have hok : responseOk c = true := by simp [responseOk, h2, h3]
  simp [processAttendanceSettle, hok]

/-- C1 witness: HTTP 200 whose body says `status:"error"` still lands in
the success branch with the whole body as the result. -/
theorem c1_http2xx_body_is_success_payload_witness :
    (processAttendanceSettle initState (FetchOutcome.response 200
      { status := RespStatus.error, message := some "boom",
        matched_count := none, unmatched_count := none,
        bigquery_loaded := none, misc_records := none })).result =
    some { status := RespStatus.error, message := some "boom",
           matched_count := none, unmatched_count := none,
           bigquery_loaded := none, misc_records := none } :=
  (c1_http2xx_body_is_success_payload initState 200 _ (by decide) (by decide)).1

/-- C2 counterexample: a non-2xx response whose body carries the
present-but-empty message `""` does not surface that message — the code
falls back to the fixed default (`data.message || '...'` treats the
empty string as falsy), so "message taken from the response body's
message field, default only when absent" is false as stated. -/
theorem c2_counterexample_empty_message :
    (({ status := RespStatus.error, message := some "",
        matched_count := none, unmatched_count := none,
        bigquery_loaded := none, misc_records := none } : ProcessResult).message
        = some "") ∧
    (processAttendanceSettle (processAttendanceStart initState)
        (FetchOutcome.response 500
          { status := RespStatus.error, message := some "",
            matched_count := none, unmatched_count := none,
            bigquery_loaded := none, misc_records := none })).error =
      "Error al procesar los datos" ∧
    "Error al procesar los datos" ≠ "" := by
  refine ⟨rfl, ?_, by decide⟩
  decide

/-- C2 (amended): on a non-2xx response the workflow leaves Submitting
for Failed — loading ends, no result is stored, and the error is the
body's `message` when that is present and non-empty, else the fixed
default; a network failure yields the fixed connection-error message;
HTTP 500 with message `"bad credential"` yields exactly that error. -/
theorem c2_non2xx_and_network_failure (s : AppState) :
    (∀ c data, responseOk c = false →
      (processAttendanceSettle (processAttendanceStart s)
          (FetchOutcome.response c data)).isLoading = false ∧
      (processAttendanceSettle (processAttendanceStart s)
          (FetchOutcome.response c data)).result = none ∧
      (∀ msg, data.message = some msg → msg ≠ "" →
        (processAttendanceSettle (processAttendanceStart s)
            (FetchOutcome.response c data)).error = msg) ∧
      ((data.message = none ∨ data.message = some "") →
        (processAttendanceSettle (processAttendanceStart s)
            (FetchOutcome.response c data)).error = "Error al procesar los datos")) ∧
    ((processAttendanceSettle (processAttendanceStart s)
        FetchOutcome.networkError).isLoading = false ∧
     (processAttendanceSettle (processAttendanceStart s)
        FetchOutcome.networkError).result = none ∧
     (processAttendanceSettle (processAttendanceStart s)
        FetchOutcome.networkError).error =
       "Error de conexión con el servidor. Verifica que el servicio esté activo.") ∧
    (processAttendanceSettle (processAttendanceStart s)
        (FetchOutcome.response 500
          { status := RespStatus.error, message := some "bad credential",
            matched_count := none, unmatched_count := none,
            bigquery_loaded := none, misc_records := none })).error =
      "bad credential" := by
  refine ⟨?_, ⟨rfl, rfl, rfl⟩, ?_⟩
  · intro c data hnok
    refine ⟨?_, ?_, ?_, ?_⟩
    · simp [processAttendanceSettle, hnok]
    · simp [processAttendanceSettle, hnok, processAttendanceStart]
    · intro msg hmsg hne
      simp [processAttendanceSettle, hnok, jsStringOr, hmsg, hne]
    · intro habs
      cases habs with
      | inl h0 => simp [processAttendanceSettle, hnok, jsStringOr, h0]
      | inr h0 => simp [processAttendanceSettle, hnok, jsStringOr, h0]
  · have hnok : responseOk 500 = false := by decide
    simp [processAttendanceSettle, hnok, jsStringOr]

/-- C2 witness: the amended theorem applied to HTTP 500 with body
message `"bad credential"`, surfacing exactly that message. -/
theorem c2_non2xx_and_network_failure_witness :
    (processAttendanceSettle (processAttendanceStart initState)
        (FetchOutcome.response 500
          { status := RespStatus.error, message := some "bad credential",
            matched_count := none, unmatched_count := none,
            bigquery_loaded := none, misc_records := none })).error =
      "bad credential" :=
  ((c2_non2xx_and_network_failure initState).1 500
    { status := RespStatus.error, message := some "bad credential",
      matched_count := none, unmatched_count := none,
      bigquery_loaded := none, misc_records := none }
    (by decide)).2.2.1 "bad credential" rfl (by decide)

/-- C3: from any reachable state with the confirmation overlay open, the
confirm transition leaves neither a held `ProcessResult` nor an error
message: afterwards `result` is `none` and `error` is empty (the code
clears `result` here; `error` was already cleared when the overlay was
opened, and no event can set it while the overlay is up). -/
theorem c3_confirm_clears_result_and_error (es : List Event)
    (h : (reach es).showConfirmation = true) :
    (step (reach es) Event.confirm).result = none ∧
    (step (reach es) Event.confirm).error = "" := by
  obtain ⟨hl, hr, he, _⟩ := confInv_reach es h
  have hen : confirmEnabled (reach es) = true := by
    simp [confirmEnabled, formViewVisible, hl, hr, h]
  simp [step, hen, processAttendanceStart, he]

/-- C3 witness: after filling the form and requesting submission, the
overlay is open and confirming clears result and error. -/
theorem c3_confirm_clears_result_and_error_witness :
    (step (reach demoEvents) Event.confirm).result = none ∧
    (step (reach demoEvents) Event.confirm).error = "" :=
  c3_confirm_clears_result_and_error demoEvents (by decide)

/-- C4: a confirm while a call is already loading is a no-op — the state
is unchanged and no network call is issued — and along every event
sequence at most one request is in flight. -/
theorem c4_no_concurrent_submission :
    (∀ s : AppState, s.isLoading = true →
      step s Event.confirm = s ∧ issuesCall s Event.confirm = false) ∧
    (∀ es : List Event, (sysReach es).inFlight ≤ 1) := by
  constructor
  · intro s hl
    have hce : confirmEnabled s = false := by
      simp [confirmEnabled, formViewVisible, hl]
    constructor
    · simp [step, hce]
    · simp [issuesCall, hce]
  · intro es
    have h := flightInv_reach es
    unfold FlightInv at h
    rw [h]
    split <;> omega

/-- C4 witness: in a loading state the confirm event changes nothing,
and a lone confirm from the initial render keeps at most one call in
flight. -/
theorem c4_no_concurrent_submission_witness :
    step { initState with isLoading := true } Event.confirm =
      { initState with isLoading := true } ∧
    (sysReach [Event.confirm]).inFlight ≤ 1 :=
  ⟨(c4_no_concurrent_submission.1 { initState with isLoading := true } rfl).1,
   c4_no_concurrent_submission.2 [Event.confirm]⟩

/-- C5: for a non-empty record sequence with a uniform field set
(every record lists the first record's keys, which are distinct), the
code's CSV equals the spec's description — header = first record's keys
comma-joined, then one row per record of cell-converted values,
newline-joined — and the spec's concrete example evaluates as stated. -/
theorem c5_toCsv_matches_spec :
    (∀ (first : MiscRecord) (rest : List MiscRecord),
      (first.map Prod.fst).Nodup →
      (∀ rec ∈ first :: rest, rec.map Prod.fst = first.map Prod.fst) →
      csvContent (first :: rest) first = csvSpec first rest) ∧
    csvContent [[("a", JsValue.vNum 1), ("b", JsValue.vStr "x,y")],
                [("a", JsValue.vNum 2), ("b", JsValue.vStr "He said \"hi\"")]]
        [("a", JsValue.vNum 1), ("b", JsValue.vStr "x,y")] =
      "a,b\n1,\"x,y\"\n2,\"He said \"\"hi\"\"\"" := by
  constructor
  · intro first rest hnd huni
    simp only [csvContent, csvSpec]
    congr 1
    congr 1
    apply List.map_congr_left
    intro rec hrec
    congr 1
    have hl := headers_map_lookup rec (first.map Prod.fst) (huni rec hrec) hnd
    rw [show (fun h => csvCell (lookupField rec h))
        = csvCell ∘ (fun h => lookupField rec h) from rfl]
    rw [← List.map_map, hl, List.map_map]
    exact List.map_congr_left (fun p _ => (specCsvCell_eq_csvCell p.2).symm)
  · decide

/-- C5 witness: the uniform-field-set equivalence applied to the spec's
two-record example. -/
theorem c5_toCsv_matches_spec_witness :
    csvContent [[("a", JsValue.vNum 1), ("b", JsValue.vStr "x,y")],
                [("a", JsValue.vNum 2), ("b", JsValue.vStr "He said \"hi\"")]]
        [("a", JsValue.vNum 1), ("b", JsValue.vStr "x,y")] =
      csvSpec [("a", JsValue.vNum 1), ("b", JsValue.vStr "x,y")]
        [[("a", JsValue.vNum 2), ("b", JsValue.vStr "He said \"hi\"")]] :=
  c5_toCsv_matches_spec.1
    [("a", JsValue.vNum 1), ("b", JsValue.vStr "x,y")]
    [[("a", JsValue.vNum 2), ("b", JsValue.vStr "He said \"hi\"")]]
    (by decide) (by decide)

/-- C6: `isFormValid` is true iff all four required strings are
non-empty, and a submit attempt surfaces the message of the first
failing check in the fixed order dates → credential → content (a valid
form clears the error and opens the confirmation overlay instead). -/
theorem c6_validator_and_first_failing_message (s : AppState) :
    (isFormValid s = true ↔
      s.startDate ≠ "" ∧ s.endDate ≠ "" ∧ s.password ≠ "" ∧
        s.fileContent ≠ "") ∧
    ((s.startDate = "" ∨ s.endDate = "") →
      (handleSubmitRequest s).error =
        "Por favor ingresa las fechas de inicio y fin" ∧
      (handleSubmitRequest s).showConfirmation = s.showConfirmation) ∧
    (s.startDate ≠ "" → s.endDate ≠ "" → s.password = "" →
      (handleSubmitRequest s).error = "Por favor ingresa la contraseña" ∧
      (handleSubmitRequest s).showConfirmation = s.showConfirmation) ∧
    (s.startDate ≠ "" → s.endDate ≠ "" → s.password ≠ "" →
        s.fileContent = "" →
      (handleSubmitRequest s).error =
        "Por favor sube un archivo con los datos" ∧
      (handleSubmitRequest s).showConfirmation = s.showConfirmation) ∧
    (s.startDate ≠ "" → s.endDate ≠ "" → s.password ≠ "" →
        s.fileContent ≠ "" →
      (handleSubmitRequest s).error = "" ∧
      (handleSubmitRequest s).showConfirmation = true) := by
  refine ⟨isFormValid_spec s, ?_, ?_, ?_, ?_⟩
  · intro hdates
    simp [handleSubmitRequest, if_pos hdates]
  · intro h1 h2 h3
    rw [handleSubmitRequest, if_neg (by tauto), if_pos h3]
    exact ⟨rfl, rfl⟩
  · intro h1 h2 h3 h4
    rw [handleSubmitRequest, if_neg (by tauto), if_neg h3, if_pos h4]
    exact ⟨rfl, rfl⟩
  · intro h1 h2 h3 h4
    rw [handleSubmitRequest_valid s h1 h2 h3 h4]
    exact ⟨rfl, rfl⟩

/-- C6 witness: a submission missing both the start date and the
credential surfaces the date-range message. -/
theorem c6_validator_and_first_failing_message_witness :
    (handleSubmitRequest
        { initState with endDate := "2024-01-02", fileContent := "datos" }).error =
      "Por favor ingresa las fechas de inicio y fin" :=
  ((c6_validator_and_first_failing_message
      { initState with endDate := "2024-01-02", fileContent := "datos" }).2.1
    (Or.inl rfl)).1

/-- C7: the reset transition clears result, file reference, content,
both dates and the error message, and leaves the credential field
(`password`) unchanged. -/
theorem c7_reset_clears_all_but_credential (s : AppState) :
    (resetForm s).result = none ∧ (resetForm s).file = none ∧
    (resetForm s).fileContent = "" ∧ (resetForm s).startDate = "" ∧
    (resetForm s).endDate = "" ∧ (resetForm s).error = "" ∧
    (resetForm s).password = s.password :=
  ⟨rfl, rfl, rfl, rfl, rfl, rfl, rfl⟩

/-- C8: for every three dash-free components `Y`, `M`, `D`, the wire
formatter returns exactly `M/D/Y` (components preserved verbatim, hence
numerically); a non-decomposable input such as `""` produces
`undefined` components; and the caller only invokes it when the confirm
button is reachable, where both dates are provably non-empty. -/
theorem c8_toWireFormat (y m d : String)
    (hy : ∀ c ∈ y.data, c ≠ '-') (hm : ∀ c ∈ m.data, c ≠ '-')
    (hd : ∀ c ∈ d.data, c ≠ '-') :
    formatDateForAPI (y ++ "-" ++ m ++ "-" ++ d) = m ++ "/" ++ d ++ "/" ++ y ∧
    formatDateForAPI "" = "undefined/undefined/" ∧
    (∀ es : List Event, confirmEnabled (reach es) = true →
      (reach es).startDate ≠ "" ∧ (reach es).endDate ≠ "") := by
  refine ⟨?_, by decide, ?_⟩
  · simp only [formatDateForAPI]
    rw [jsSplit_dash y m d hy hm hd]
    rfl
  · intro es hce
    have hsc : (reach es).showConfirmation = true :=
      (confirmEnabled_spec _ hce).2.2
    obtain ⟨_, _, _, h1, h2, _⟩ := confInv_reach es hsc
    exact ⟨h1, h2⟩

/-- C8 witness: `2024-03-05` becomes `03/05/2024`, and after the demo
interaction the reachable confirm sees non-empty dates. -/
theorem c8_toWireFormat_witness :
    formatDateForAPI ("2024" ++ "-" ++ "03" ++ "-" ++ "05") =
      "03" ++ "/" ++ "05" ++ "/" ++ "2024" ∧
    (reach demoEvents).startDate ≠ "" :=
  ⟨(c8_toWireFormat "2024" "03" "05" (by decide) (by decide) (by decide)).1,
   ((c8_toWireFormat "2024" "03" "05" (by decide) (by decide)
      (by decide)).2.2 demoEvents (by decide)).1⟩

/-- C9: the display formatter returns `""` on empty input; on a
well-formed `Y-M-D` date (digit month and day, month value 1..12) it
renders `{day} de {month-name} de {year}` with the 1-based month
indexing the 0-based 12-entry table; and `2024-03-05` renders as
`5 de marzo de 2024`. -/
theorem c9_toDisplayFormat (y m d : String) (mv dv : Nat)
    (hy : ∀ c ∈ y.data, c ≠ '-')
    (hm : ∀ c ∈ m.data, Char.isDigit c = true)
    (hd : ∀ c ∈ d.data, Char.isDigit c = true)
    (hpm : parseIntJs m = some mv) (hpd : parseIntJs d = some dv)
    (h1 : 1 ≤ mv) (h12 : mv ≤ 12) :
    formatDateForDisplay "" = "" ∧
    formatDateForDisplay (y ++ "-" ++ m ++ "-" ++ d) =
      toString dv ++ " de " ++ monthsTable.getD (mv - 1) "" ++ " de " ++ y ∧
    formatDateForDisplay "2024-03-05" = "5 de marzo de 2024" := by
  refine ⟨rfl, ?_, by decide⟩
  have hm' : ∀ c ∈ m.data, c ≠ '-' := by
    intro c hc heq
    have := hm c hc
    rw [heq] at this
    exact absurd this (by decide)
  have hd' : ∀ c ∈ d.data, c ≠ '-' := by
    intro c hc heq
    have := hd c hc
    rw [heq] at this
    exact absurd this (by decide)
  have hne : ¬ (y ++ "-" ++ m ++ "-" ++ d) = "" := by
    intro h0
    have hd0 : (y ++ "-" ++ m ++ "-" ++ d).data = ([] : List Char) := by
      rw [h0]
    rw [show (y ++ "-" ++ m ++ "-" ++ d).data
        = y.data ++ '-' :: (m.data ++ '-' :: d.data) from by
      simp [string_data_append]] at hd0
    simp at hd0
  simp only [formatDateForDisplay, if_neg hne]
  rw [jsSplit_dash y m d hy hm' hd']
  have j0 : jsIndex [y, m, d] 0 = y := rfl
  have j1 : jsIndex [y, m, d] 1 = m := rfl
  have j2 : jsIndex [y, m, d] 2 = d := rfl
  rw [j0, j1, j2, hpm, hpd]
  have hml : monthLookup (some mv) = monthsTable.getD (mv - 1) "" := by
    interval_cases mv <;> rfl
  rw [hml]
  rfl

/-- C9 witness: the general rendering applied to `2024-03-05`
(month 3 → `marzo`, day 5 → `5`). -/
theorem c9_toDisplayFormat_witness :
    formatDateForDisplay ("2024" ++ "-" ++ "03" ++ "-" ++ "05") =
      toString (5 : Nat) ++ " de " ++ monthsTable.getD (3 - 1) "" ++ " de " ++ "2024" :=
  (c9_toDisplayFormat "2024" "03" "05" 3 5 (by decide) (by decide) (by decide)
    (by decide) (by decide) (by decide) (by decide)).2.1

/-- C10: the CSV export is a safe no-op whenever there is no result, the
result has no `misc_records` (absent or `null`), or the list is empty:
the guard returns `none` and the first-record key lookup is never
reached, so no download is produced. -/
theorem c10_download_guard_safe :
    downloadMiscCSV none = none ∧
    (∀ r : ProcessResult, r.misc_records = none →
      downloadMiscCSV (some r) = none) ∧
    (∀ r : ProcessResult, r.misc_records = some [] →
      downloadMiscCSV (some r) = none) := by
  refine ⟨rfl, ?_, ?_⟩
  · intro r h
    simp [downloadMiscCSV, h]
  · intro r h
    simp [downloadMiscCSV, h]

/-- C10 witness: a result without `misc_records` and one with an empty
list both produce no download. -/
theorem c10_download_guard_safe_witness :
    downloadMiscCSV (some
      { status := RespStatus.success, message := none,
        matched_count := some 120, unmatched_count := some 0,
        bigquery_loaded := some true, misc_records := none }) = none ∧
    downloadMiscCSV (some
      { status := RespStatus.success, message := none,
        matched_count := some 120, unmatched_count := some 0,
        bigquery_loaded := some true, misc_records := some [] }) = none :=
  ⟨c10_download_guard_safe.2.1 _ rfl, c10_download_guard_safe.2.2 _ rfl⟩

